import Mathlib

/-!
Shallow embedding of the ExplainX tracing/explanation core
(`src/backend/explainx.py` and `src/backend/llm.py`).

Python values are modelled by `PyVal` (with `ℚ` standing in for the
`float` type), Python dicts by insertion-ordered association lists, the
process-wide trace buffer `TRACE` by an explicit `List TraceRecord`
threaded through the state-changing operations, network calls by an
oracle `Nat → AttemptResult` giving the outcome of each successive
attempt a provider would observe, and wall-clock readings by explicit
timestamp/duration parameters.
-/

set_option autoImplicit false

/-- A Python runtime value, as far as the traced pipeline observes them.
`rat` stands in for Python `float`. -/
inductive PyVal where
  | none
  | int (n : ℤ)
  | bool (b : Bool)
  | str (s : String)
  | rat (q : ℚ)
  | list (xs : List PyVal)
  | dict (entries : List (String × PyVal))


/-- The single-quote character, used by Python string formatting. -/
def squote : String := String.mk [Char.ofNat 39]

/-- Up to `n` decimal digits of the fractional part of `q ∈ [0, 1)`. -/
def fracDigits : Nat → ℚ → String
  | 0, _ => ""
  | n + 1, q =>
    if q = 0 then ""
    else
      let d : ℤ := ⌊q * 10⌋
      toString d ++ fracDigits n (q * 10 - (d : ℚ))

/-- Decimal rendering of a `ℚ` modelling Python `str(float)`; exact for
floats whose value has a finite decimal expansion, which is how values this
pipeline renders are produced. -/
def pyStrRat (q : ℚ) : String :=
  let sgn := if q < 0 then "-" else ""
  let a := |q|
  let fs := fracDigits 17 (a - (⌊a⌋ : ℚ))
  sgn ++ toString ⌊a⌋ ++ "." ++ (if fs = "" then "0" else fs)

mutual

/-- Python `repr` of a value (string escaping is not modelled; the traced
pipeline never feeds quote characters through `repr`). -/
def pyRepr : PyVal → String
  | .none => "None"
  | .int n => toString n
  | .bool b => if b then "True" else "False"
  | .str s => squote ++ s ++ squote
  | .rat q => pyStrRat q
  | .list xs => "[" ++ pyReprList xs ++ "]"
  | .dict es => "\x7b" ++ pyReprDict es ++ "\x7d"

/-- Comma-separated `repr` of list elements. -/
def pyReprList : List PyVal → String
  | [] => ""
  | [x] => pyRepr x
  | x :: xs => pyRepr x ++ ", " ++ pyReprList xs

/-- Comma-separated `repr` of dict entries. -/
def pyReprDict : List (String × PyVal) → String
  | [] => ""
  | [(k, v)] => squote ++ k ++ squote ++ ": " ++ pyRepr v
  | (k, v) :: es => squote ++ k ++ squote ++ ": " ++ pyRepr v ++ ", " ++ pyReprDict es

end

/-- Python `str` of a value: the raw text for strings, `repr` otherwise. -/
def pyStr : PyVal → String
  | .str s => s
  | v => pyRepr v

/-- JSON string escaping (backslash, quote, newline). -/
def jsonEscape (s : String) : String :=
  s.data.foldl
    (fun acc c =>
      if c = Char.ofNat 92 then acc ++ "\\\\"
      else if c = Char.ofNat 34 then acc ++ "\\\""
      else if c = Char.ofNat 10 then acc ++ "\\n"
      else acc.push c)
    ""

mutual

/-- Compact `json.dumps` of a value. -/
def jsonDumps : PyVal → String
  | .none => "null"
  | .int n => toString n
  | .bool b => if b then "true" else "false"
  | .str s => "\"" ++ jsonEscape s ++ "\""
  | .rat q => pyStrRat q
  | .list xs => "[" ++ jsonDumpsList xs ++ "]"
  | .dict es => "\x7b" ++ jsonDumpsDict es ++ "\x7d"

/-- Compact JSON list body. -/
def jsonDumpsList : List PyVal → String
  | [] => ""
  | [x] => jsonDumps x
  | x :: xs => jsonDumps x ++ ", " ++ jsonDumpsList xs

/-- Compact JSON object body. -/
def jsonDumpsDict : List (String × PyVal) → String
  | [] => ""
  | [(k, v)] => "\"" ++ jsonEscape k ++ "\": " ++ jsonDumps v
  | (k, v) :: es => "\"" ++ jsonEscape k ++ "\": " ++ jsonDumps v ++ ", " ++ jsonDumpsDict es

end

/-- `n` spaces. -/
def spaces (n : Nat) : String := String.mk (List.replicate n (Char.ofNat 32))

mutual

/-- `json.dumps(v, indent=2)` rendering at indentation level `ind`. -/
def jsonIndent (ind : Nat) : PyVal → String
  | .list [] => "[]"
  | .dict [] => "\x7b\x7d"
  | .list xs => "[\n" ++ jsonIndentList (ind + 2) xs ++ "\n" ++ spaces ind ++ "]"
  | .dict es => "\x7b\n" ++ jsonIndentDict (ind + 2) es ++ "\n" ++ spaces ind ++ "\x7d"
  | v => jsonDumps v

/-- Indented JSON list body, one element per line. -/
def jsonIndentList (ind : Nat) : List PyVal → String
  | [] => ""
  | [x] => spaces ind ++ jsonIndent ind x
  | x :: xs => spaces ind ++ jsonIndent ind x ++ ",\n" ++ jsonIndentList ind xs

/-- Indented JSON object body, one entry per line. -/
def jsonIndentDict (ind : Nat) : List (String × PyVal) → String
  | [] => ""
  | [(k, v)] => spaces ind ++ "\"" ++ jsonEscape k ++ "\": " ++ jsonIndent ind v
  | (k, v) :: es =>
    spaces ind ++ "\"" ++ jsonEscape k ++ "\": " ++ jsonIndent ind v ++ ",\n" ++
      jsonIndentDict ind es

end

/-- One trace record, as assembled by the `wrapper` in `explainx.py`
(`TRACE.append({...})`). `duration_ms` uses `ℚ` for the Python float. -/
structure TraceRecord where
  function : String
  file : String
  inputs : List (String × PyVal)
  output : PyVal
  code : String
  start_time : String
  end_time : String
  duration_ms : ℚ
  explanation : Option String


/-- Python dict assignment `d[k] = v`: overwrite in place if the key is
present, append otherwise. -/
def dictInsert (d : List (String × PyVal)) (k : String) (v : PyVal) :
    List (String × PyVal) :=
  if k ∈ d.map Prod.fst then
    d.map (fun p => if p.1 = k then (p.1, v) else p)
  else
    d ++ [(k, v)]

/-- Python `d.update(entries)`: repeated dict assignment. -/
def dictUpdate (d entries : List (String × PyVal)) : List (String × PyVal) :=
  entries.foldl (fun acc kv => dictInsert acc kv.1 kv.2) d

/-- Python dict lookup (first — and only — binding of the key). -/
def lookupD : List (String × PyVal) → String → Option PyVal
  | [], _ => Option.none
  | p :: rest, k => if p.1 = k then some p.2 else lookupD rest k

/-- The `inputs` dict built by the wrapper in `explainx.py` lines 36-40:
positional args are bound to the first declared parameters in order
(`for i, arg in enumerate(args): if i < len(params): inputs[params[i]] = arg`,
which pairs exactly `params.zip args`), then `inputs.update(kwargs)`. -/
def buildInputs (params : List String) (args : List PyVal)
    (kwargs : List (String × PyVal)) : List (String × PyVal) :=
  dictUpdate (dictUpdate [] (params.zip args)) kwargs

/-- A Python callable as the interceptor sees it: a name, a defining file,
an introspectable parameter list, a best-effort source snapshot
(`Option.none` when `inspect.getsource` raises), and the call behavior
itself, which may raise (`Except.error`). -/
structure PyFunc where
  name : String
  file : String
  params : List String
  source : Option String
  impl : List PyVal → List (String × PyVal) → Except String PyVal

/-- The `wrapper` produced by the `explainX()` decorator, as an explicit
state transformer on the trace store. Timestamps and the measured duration
are environment inputs. The inputs dict is built first; if the wrapped
callable raises, the error propagates and nothing is appended; otherwise
one record is appended at the tail. -/
def wrapper (fn : PyFunc) (args : List PyVal) (kwargs : List (String × PyVal))
    (t0 t1 : String) (dur : ℚ) (store : List TraceRecord) :
    Except String PyVal × List TraceRecord :=
  let inputs := buildInputs fn.params args kwargs
  match fn.impl args kwargs with
  | .error e => (.error e, store)
  | .ok result =>
    let src := match fn.source with
      | some s => s
      | Option.none => "Source code not available"
    (.ok result,
      store ++ [{ function := fn.name, file := fn.file, inputs := inputs,
                  output := result, code := src, start_time := t0, end_time := t1,
                  duration_ms := dur, explanation := Option.none }])

/-- `pop_traces()`: return the whole buffer and reset it to empty. -/
def pop_traces (store : List TraceRecord) :
    List TraceRecord × List TraceRecord :=
  (store, [])

/-- `clear_traces()`: reset the buffer without returning it. -/
def clear_traces (_store : List TraceRecord) : List TraceRecord := []

/-- `get_traces()`: a copy of the buffer, store unchanged. -/
def get_traces (store : List TraceRecord) : List TraceRecord := store

/-- One invocation of an instrumented callable: the callable, the actual
arguments, and the environment-provided timestamps and duration. -/
structure CallEvent where
  fn : PyFunc
  args : List PyVal
  kwargs : List (String × PyVal)
  t0 : String
  t1 : String
  dur : ℚ

/-- Whether the underlying callable completes normally on this event. -/
def eventOk (e : CallEvent) : Bool :=
  match e.fn.impl e.args e.kwargs with
  | .ok _ => true
  | .error _ => false

/-- The record the wrapper appends for a successful event. -/
def recordOf (e : CallEvent) : TraceRecord :=
  { function := e.fn.name
    file := e.fn.file
    inputs := buildInputs e.fn.params e.args e.kwargs
    output := match e.fn.impl e.args e.kwargs with
      | .ok v => v
      | .error _ => PyVal.none
    code := match e.fn.source with
      | some s => s
      | Option.none => "Source code not available"
    start_time := e.t0
    end_time := e.t1
    duration_ms := e.dur
    explanation := Option.none }

/-- Run a sequence of instrumented calls against the store. -/
def runCalls (evs : List CallEvent) (store : List TraceRecord) :
    List TraceRecord :=
  evs.foldl (fun s e => (wrapper e.fn e.args e.kwargs e.t0 e.t1 e.dur s).2) store

/-- `"%.2f"`-style fixed-point rendering used by `f"...{x:.2f}ms"` in
`llm.py`; rounds to two decimals (ties of the underlying binary float are
immaterial to every property proved here). -/
def formatFixed2 (q : ℚ) : String :=
  let n : ℤ := round (q * 100)
  let sgn := if n < 0 then "-" else ""
  let m : Nat := n.natAbs
  sgn ++ toString (m / 100) ++ "." ++ (if m % 100 < 10 then "0" else "") ++
    toString (m % 100)

/-- Python `s * n` for strings. -/
def strRepeat (s : String) (n : Nat) : String :=
  String.join (List.replicate n s)

/-- `DEEPSEEK_API_URL` constant of `llm.py`. -/
def DEEPSEEK_API_URL : String := "https://api.deepseek.com/chat/completions"

/-- `OPENROUTER_API_URL` constant of `llm.py`. -/
def OPENROUTER_API_URL : String := "https://openrouter.ai/api/v1/chat/completions"

/-- `OPENROUTER_API_KEY` is hard-coded (non-empty) in `llm.py`. -/
def OPENROUTER_API_KEY : String :=
  "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"

/-- The `timeout=30.0` bound handed to the HTTP client in `call_deepseek`. -/
def DEEPSEEK_HTTP_TIMEOUT : ℚ := 30

/-- The `timeout=30.0` bound handed to the HTTP client in `call_openrouter`. -/
def OPENROUTER_HTTP_TIMEOUT : ℚ := 30

/-- Outcome of one remote HTTP attempt as the source observes it:
`success t` is a 200 response whose `choices[0].message.content` extracted
to `t`; `failure` collapses transport errors, timeouts, non-200 statuses
and malformed response bodies, all of which the source maps to `None`. -/
inductive AttemptResult where
  | success (text : String)
  | failure

/-- `call_deepseek`: returns `None` without any attempt when the API key is
empty; otherwise performs exactly one attempt (`net 0`) and returns the
extracted text on success, `None` on any failure. The prompt is sent with
the request and does not influence the modelled outcome. -/
def call_deepseek (_prompt : String) (apiKey : String)
    (net : Nat → AttemptResult) : Option String :=
  if apiKey = "" then Option.none
  else
    match net 0 with
    | .success t => some t
    | .failure => Option.none

/-- `call_openrouter`: same shape as `call_deepseek`, against the
hard-coded `OPENROUTER_API_KEY`. -/
def call_openrouter (_prompt : String) (net : Nat → AttemptResult) :
    Option String :=
  if OPENROUTER_API_KEY = "" then Option.none
  else
    match net 0 with
    | .success t => some t
    | .failure => Option.none

/-- Python truthiness test `not explanation` applied to an
`Optional[str]`: true for `None` and for the empty string. -/
def pyFalsy : Option String → Bool
  | Option.none => true
  | some s => s.isEmpty

/-- `", ".join(f"{k}={v}" for k, v in inputs.items())`. -/
def inputSummary (inputs : List (String × PyVal)) : String :=
  String.intercalate ", " (inputs.map (fun kv => kv.1 ++ "=" ++ pyStr kv.2))

/-- `generate_fallback_explanation` from `llm.py` lines 116-128. -/
def generate_fallback_explanation (t : TraceRecord) : String :=
  "The function " ++ squote ++ t.function ++ squote ++
    " was called with inputs: " ++ inputSummary t.inputs ++ ". " ++
    "It processed these values and returned: " ++ pyStr t.output ++ ". " ++
    "Execution took " ++ formatFixed2 t.duration_ms ++ "ms."

/-- The `**Output:**` interpolation of the prompt: scalars (`int`, `float`,
`str`, `bool`) are interpolated with `str`, everything else with
`json.dumps`. -/
def promptOutput : PyVal → String
  | .int n => pyStr (.int n)
  | .rat q => pyStr (.rat q)
  | .str s => s
  | .bool b => if b then "True" else "False"
  | v => jsonDumps v

/-- The body of `generate_explanation_prompt` (the f-string itself,
before the `@explainX()` decoration is taken into account). -/
def generate_explanation_prompt_fn (t : TraceRecord) : String :=
  "You are a senior software engineer. Analyze this function execution and provide a clear, concise explanation to your Junior Software Engineer.\n\n**Function Name:** " ++
    t.function ++ "\n**File:** " ++ t.file ++ "\n**Inputs:** " ++
    jsonIndent 0 (.dict t.inputs) ++ "\n**Output:** " ++ promptOutput t.output ++
    "\n\n**Source Code:**\n```python\n" ++ t.code ++
    "\n```\n\nProvide a brief explanation (2-3 sentences) of:\n1. What this function does\n2. Why it returned this specific output given the inputs\n3. Any important logic or edge cases handled\n\nKeep the explanation simple and understandable for your Junior Software Engineer."

/-- The file path `inspect.getfile` reports for `llm.py` definitions; an
environment-provided constant no claim depends on. -/
def LLM_FILE : String := "llm.py"

/-- The source snapshot `inspect.getsource` yields for the decorated
prompt builder; an environment-provided constant no claim depends on. -/
def generate_explanation_prompt_source : String :=
  "@explainX()\ndef generate_explanation_prompt(trace):\n    return f..."

/-- The dict `TRACE.append` receives, re-encoded as a `PyVal`: this is the
value the decorated prompt builder sees as its single `trace` argument. -/
def traceToVal (t : TraceRecord) : PyVal :=
  .dict [("function", .str t.function), ("file", .str t.file),
         ("inputs", .dict t.inputs), ("output", t.output),
         ("code", .str t.code), ("start_time", .str t.start_time),
         ("end_time", .str t.end_time), ("duration_ms", .rat t.duration_ms),
         ("explanation", match t.explanation with
            | some s => .str s
            | Option.none => PyVal.none)]

/-- `generate_explanation_prompt` as defined in `llm.py` line 23: the
f-string body wrapped by `@explainX()`, so each invocation also appends a
trace record for the builder call itself (parameter list `["trace"]`,
argument the trace dict, output the produced prompt). Timestamps and the
measured duration are environment inputs, as in `wrapper`. -/
def generate_explanation_prompt (t : TraceRecord) (t0 t1 : String) (dur : ℚ)
    (store : List TraceRecord) : String × List TraceRecord :=
  let result := generate_explanation_prompt_fn t
  (result,
    store ++ [{ function := "generate_explanation_prompt"
                file := LLM_FILE
                inputs := buildInputs ["trace"] [traceToVal t] []
                output := .str result
                code := generate_explanation_prompt_source
                start_time := t0
                end_time := t1
                duration_ms := dur
                explanation := Option.none }])

/-- `explain_single_trace` from `llm.py` lines 132-148: build the prompt
(itself a traced call), try DeepSeek, then OpenRouter if the result is
falsy, then the deterministic local fallback, and store the result in the
record's `explanation` field. `dsKey` is the environment-dependent
`DEEPSEEK_API_KEY`; `dsNet`/`orNet` are each provider's attempt oracle. -/
def explain_single_trace (dsKey : String) (dsNet orNet : Nat → AttemptResult)
    (t0 t1 : String) (dur : ℚ) (trace : TraceRecord)
    (store : List TraceRecord) : TraceRecord × List TraceRecord :=
  let pr := generate_explanation_prompt trace t0 t1 dur store
  let e1 := call_deepseek pr.1 dsKey dsNet
  let e2 := if pyFalsy e1 then call_openrouter pr.1 orNet else e1
  let e3 := if pyFalsy e2 then some (generate_fallback_explanation trace) else e2
  ({ trace with explanation := e3 }, pr.2)

/-- `explain_traces_sync` from `llm.py` lines 159-163: overwrite every
record's `explanation` with the deterministic fallback text. -/
def explain_traces_sync (traces : List TraceRecord) : List TraceRecord :=
  traces.map (fun t => { t with explanation := some (generate_fallback_explanation t) })

/-- The per-record block of `build_explain_file` (`i` is the 1-based
sequence number). A record whose `explanation` is still `None` makes the
Python code raise (`None.split`), modelled by `Option.none`; the
`'No explanation available'` default of `.get` concerns records lacking
the key, which the interceptor never produces. -/
def traceReportLines (i : Nat) (t : TraceRecord) : Option (List String) :=
  match t.explanation with
  | Option.none => Option.none
  | some e =>
    some (["[" ++ toString i ++ "] Function: " ++ t.function,
           "    File: " ++ t.file,
           "    Execution Time: " ++ formatFixed2 t.duration_ms ++ "ms",
           "",
           "    📥 Inputs:"]
      ++ t.inputs.map (fun kv => "       • " ++ kv.1 ++ ": " ++ pyStr kv.2)
      ++ ["", "    📤 Output: " ++ pyStr t.output, "", "    💡 Explanation:"]
      ++ (e.splitOn "\n").map (fun line => "       " ++ line)
      ++ ["", strRepeat "-" 60, ""])

/-- All per-record blocks, numbering from `i`. -/
def reportBody : Nat → List TraceRecord → Option (List String)
  | _, [] => some []
  | i, t :: rest =>
    match traceReportLines i t, reportBody (i + 1) rest with
    | some ls, some more => some (ls ++ more)
    | _, _ => Option.none

/-- `build_explain_file` from `llm.py` lines 166-199: fixed header, one
block per record, fixed footer, joined with newlines. -/
def build_explain_file (traces : List TraceRecord) : Option String :=
  (reportBody 1 traces).map (fun body =>
    String.intercalate "\n"
      ([strRepeat "=" 60, "ExplainX - Function Execution Report",
        strRepeat "=" 60, ""]
        ++ body
        ++ [strRepeat "=" 60, "End of ExplainX Report", strRepeat "=" 60]))

/-! ### Dictionary lemmas -/

theorem map_fst_ite_snd (d : List (String × PyVal)) (k : String) (v : PyVal) :
    (d.map (fun p => if p.1 = k then (p.1, v) else p)).map Prod.fst =
      d.map Prod.fst := by
  rw [List.map_map]
  apply List.map_congr_left
  intro p _
  by_cases h : p.1 = k <;> simp [h]

theorem map_fst_dictInsert (d : List (String × PyVal)) (k : String) (v : PyVal) :
    (dictInsert d k v).map Prod.fst =
      if k ∈ d.map Prod.fst then d.map Prod.fst else d.map Prod.fst ++ [k] := by
  unfold dictInsert
  by_cases h : k ∈ d.map Prod.fst
  · simp only [if_pos h, map_fst_ite_snd]
  · simp [if_neg h]

theorem dictInsert_not_mem {d : List (String × PyVal)} {k : String}
    (v : PyVal) (h : k ∉ d.map Prod.fst) : dictInsert d k v = d ++ [(k, v)] := by
  simp [dictInsert, h]

theorem dictUpdate_fresh :
    ∀ {entries : List (String × PyVal)} (d : List (String × PyVal)),
      (entries.map Prod.fst).Nodup →
      (∀ k ∈ entries.map Prod.fst, k ∉ d.map Prod.fst) →
      dictUpdate d entries = d ++ entries
  | [], d, _, _ => by simp [dictUpdate]
  | (k, v) :: es, d, hnd, hfresh => by
    have hk : k ∉ d.map Prod.fst := hfresh k (by simp)
    have step : dictInsert d k v = d ++ [(k, v)] := dictInsert_not_mem v hk
    have hnd' : (es.map Prod.fst).Nodup := by
      simpa using hnd.of_cons
    have hknotin : k ∉ es.map Prod.fst := by
      have hcons := hnd
      simp only [List.map_cons, List.nodup_cons] at hcons
      exact hcons.1
    have hfresh' : ∀ k' ∈ es.map Prod.fst, k' ∉ (d ++ [(k, v)]).map Prod.fst := by
      intro k' hk'
      simp only [List.map_append, List.mem_append, List.map_cons, List.map_nil,
        List.mem_singleton, not_or]
      refine ⟨hfresh k' (by simp [hk']), ?_⟩
      intro hkk
      subst hkk
      exact hknotin hk'
    have ih := @dictUpdate_fresh es (d ++ [(k, v)]) hnd' hfresh'
    calc dictUpdate d ((k, v) :: es)
        = dictUpdate (dictInsert d k v) es := by simp [dictUpdate]
      _ = dictUpdate (d ++ [(k, v)]) es := by rw [step]
      _ = d ++ [(k, v)] ++ es := ih
      _ = d ++ ((k, v) :: es) := by simp

theorem lookupD_append_right {d1 : List (String × PyVal)}
    (d2 : List (String × PyVal)) {k : String} (h : k ∉ d1.map Prod.fst) :
    lookupD (d1 ++ d2) k = lookupD d2 k := by
  induction d1 with
  | nil => simp
  | cons p rest ih =>
    simp only [List.map_cons, List.mem_cons, not_or] at h
    have hne : ¬ p.1 = k := fun hh => h.1 hh.symm
    simp [lookupD, hne, ih h.2]

theorem lookupD_append_ne {k' k : String} (h : k' ≠ k) (v : PyVal) :
    ∀ d : List (String × PyVal), lookupD (d ++ [(k, v)]) k' = lookupD d k'
  | [] => by
    have hkk : ¬ k = k' := fun hh => h hh.symm
    simp [lookupD, hkk]
  | p :: rest => by
    by_cases hp : p.1 = k'
    · simp [lookupD, hp]
    · simp [lookupD, hp, lookupD_append_ne h v rest]

theorem lookupD_map_ite_ne {k' k : String} (h : k' ≠ k)
    (d : List (String × PyVal)) (v : PyVal) :
    lookupD (d.map (fun p => if p.1 = k then (p.1, v) else p)) k' =
      lookupD d k' := by
  induction d with
  | nil => simp [lookupD]
  | cons p rest ih =>
    by_cases hp : p.1 = k
    · have hkk : ¬ k = k' := fun hh => h hh.symm
      simp [lookupD, hp, hkk, ih]
    · simp only [List.map_cons, if_neg hp]
      by_cases hq : p.1 = k'
      · simp [lookupD, hq]
      · simp [lookupD, hq, ih]

theorem lookupD_dictInsert_self (d : List (String × PyVal)) (k : String)
    (v : PyVal) : lookupD (dictInsert d k v) k = some v := by
  unfold dictInsert
  by_cases hmem : k ∈ d.map Prod.fst
  · rw [if_pos hmem]
    induction d with
    | nil => simp at hmem
    | cons p rest ih =>
      by_cases hp : p.1 = k
      · simp [lookupD, hp]
      · simp only [List.map_cons, List.mem_cons, hp] at hmem
        have hmem' : k ∈ rest.map Prod.fst := by
          rcases hmem with hh | hh
          · exact absurd hh.symm hp
          · exact hh
        simp [lookupD, hp, ih hmem']
  · rw [if_neg hmem, lookupD_append_right _ hmem]
    simp [lookupD]

theorem lookupD_dictInsert_ne {k' k : String} (h : k' ≠ k)
    (d : List (String × PyVal)) (v : PyVal) :
    lookupD (dictInsert d k v) k' = lookupD d k' := by
  unfold dictInsert
  by_cases hmem : k ∈ d.map Prod.fst
  · rw [if_pos hmem]
    exact lookupD_map_ite_ne h d v
  · rw [if_neg hmem]
    exact lookupD_append_ne h v d

theorem lookupD_dictUpdate_not_mem :
    ∀ {entries : List (String × PyVal)} {k : String}
      (d : List (String × PyVal)), k ∉ entries.map Prod.fst →
      lookupD (dictUpdate d entries) k = lookupD d k
  | [], _, d, _ => by simp [dictUpdate]
  | (k0, v0) :: es, k, d, h => by
    simp only [List.map_cons, List.mem_cons, not_or] at h
    have step : dictUpdate d ((k0, v0) :: es) =
        dictUpdate (dictInsert d k0 v0) es := by simp [dictUpdate]
    rw [step, lookupD_dictUpdate_not_mem (dictInsert d k0 v0) h.2,
      lookupD_dictInsert_ne h.1]

theorem lookupD_dictUpdate_mem :
    ∀ {entries : List (String × PyVal)} {k : String} {v : PyVal}
      (d : List (String × PyVal)), (entries.map Prod.fst).Nodup →
      (k, v) ∈ entries →
      lookupD (dictUpdate d entries) k = some v
  | [], _, _, _, _, hmem => by simp at hmem
  | (k0, v0) :: es, k, v, d, hnd, hmem => by
    have step : dictUpdate d ((k0, v0) :: es) =
        dictUpdate (dictInsert d k0 v0) es := by simp [dictUpdate]
    rcases List.mem_cons.mp hmem with hhead | htail
    · obtain ⟨hk, hv⟩ := Prod.ext_iff.mp hhead
      subst hk
      subst hv
      have hknotin : k ∉ es.map Prod.fst := by
        have hcons := hnd
        simp only [List.map_cons, List.nodup_cons] at hcons
        exact hcons.1
      rw [step, lookupD_dictUpdate_not_mem (dictInsert d k v) hknotin,
        lookupD_dictInsert_self]
    · have hnd' : (es.map Prod.fst).Nodup := by
        simpa using hnd.of_cons
      rw [step]
      exact lookupD_dictUpdate_mem (dictInsert d k0 v0) hnd' htail

/-! ### Argument-binding lemmas -/

theorem map_fst_zip_take :
    ∀ (ps : List String) (as : List PyVal),
      (ps.zip as).map Prod.fst = ps.take as.length
  | [], _ => by simp
  | _ :: _, [] => by simp
  | p :: ps, a :: as => by
    simp [List.zip_cons_cons, map_fst_zip_take ps as]

theorem posBinding_eq_zip (params : List String) (args : List PyVal)
    (hp : params.Nodup) : dictUpdate [] (params.zip args) = params.zip args := by
  have hkeys : ((params.zip args).map Prod.fst).Nodup := by
    rw [map_fst_zip_take]
    exact hp.sublist (List.take_sublist _ _)
  have := @dictUpdate_fresh (params.zip args) [] hkeys (by simp)
  simpa using this

theorem buildInputs_eq_append (params : List String) (args : List PyVal)
    (kwargs : List (String × PyVal)) (hp : params.Nodup)
    (hkw : (kwargs.map Prod.fst).Nodup)
    (hdisj : ∀ k ∈ kwargs.map Prod.fst, k ∉ params.take args.length) :
    buildInputs params args kwargs = params.zip args ++ kwargs := by
  unfold buildInputs
  rw [posBinding_eq_zip params args hp]
  exact @dictUpdate_fresh kwargs (params.zip args) hkw
    (by
      intro k hk
      rw [map_fst_zip_take]
      exact hdisj k hk)

theorem lookupD_zip_get :
    ∀ (params : List String) (args : List PyVal) (i : Nat)
      (hip : i < params.length) (hia : i < args.length), params.Nodup →
      lookupD (params.zip args) (params.get ⟨i, hip⟩) =
        some (args.get ⟨i, hia⟩)
  | [], _, i, hip, _, _ => by simp at hip
  | _ :: _, [], i, _, hia, _ => by simp at hia
  | p :: ps, a :: as, 0, _, _, _ => by simp [lookupD]
  | p :: ps, a :: as, i + 1, hip, hia, hnd => by
    have hne : ¬ p = ps.get ⟨i, by simpa using hip⟩ := by
      intro hh
      apply (List.nodup_cons.mp hnd).1
      rw [hh]
      exact List.get_mem _ _ _
    simp only [List.zip_cons_cons, List.get_cons_succ, lookupD]
    rw [if_neg hne]
    exact lookupD_zip_get ps as i (by simpa using hip) (by simpa using hia)
      (List.nodup_cons.mp hnd).2

/-- Binding validity of a Python call against a plain parameter list
(positional-or-keyword parameters, the only kind the instrumented
callables of this repository declare): not more positional arguments than
parameters, every keyword names a declared parameter, and no keyword
re-binds a positionally bound parameter. A call violating these raises
`TypeError` inside `fn(*args, **kwargs)`, so no record is appended for it. -/
def callBindsOk (params : List String) (args : List PyVal)
    (kwargs : List (String × PyVal)) : Prop :=
  args.length ≤ params.length ∧
  (∀ kv ∈ kwargs, kv.1 ∈ params) ∧
  (∀ kv ∈ kwargs, kv.1 ∉ params.take args.length)

instance (params : List String) (args : List PyVal)
    (kwargs : List (String × PyVal)) :
    Decidable (callBindsOk params args kwargs) := by
  unfold callBindsOk
  infer_instance

/-! ### Interceptor lemmas -/

theorem wrapper_store_ok {e : CallEvent} (store : List TraceRecord)
    (h : eventOk e = true) :
    (wrapper e.fn e.args e.kwargs e.t0 e.t1 e.dur store).2 =
      store ++ [recordOf e] := by
  unfold eventOk at h
  cases himpl : e.fn.impl e.args e.kwargs with
  | error err => rw [himpl] at h; simp at h
  | ok v =>
    simp [wrapper, recordOf, himpl]

theorem wrapper_store_error {e : CallEvent} (store : List TraceRecord)
    (h : eventOk e = false) :
    (wrapper e.fn e.args e.kwargs e.t0 e.t1 e.dur store).2 = store := by
  unfold eventOk at h
  cases himpl : e.fn.impl e.args e.kwargs with
  | error err => simp [wrapper, himpl]
  | ok v => rw [himpl] at h; simp at h

theorem runCalls_ok :
    ∀ (evs : List CallEvent) (store : List TraceRecord),
      (∀ e ∈ evs, eventOk e = true) →
      runCalls evs store = store ++ evs.map recordOf
  | [], store, _ => by simp [runCalls]
  | e :: evs, store, h => by
    have he : eventOk e = true := h e (by simp)
    have step : runCalls (e :: evs) store =
        runCalls evs ((wrapper e.fn e.args e.kwargs e.t0 e.t1 e.dur store).2) := by
      simp [runCalls]
    rw [step, wrapper_store_ok store he,
      runCalls_ok evs (store ++ [recordOf e]) (fun e' he' => h e' (by simp [he']))]
    simp

/-! ### Fallback text lemmas -/

theorem generate_fallback_length_pos (t : TraceRecord) :
    0 < (generate_fallback_explanation t).length := by
  have h13 : ("The function ").length = 13 := by decide
  simp only [generate_fallback_explanation, String.length_append, h13]
  omega

theorem generate_fallback_ne_empty (t : TraceRecord) :
    generate_fallback_explanation t ≠ "" := by
  intro h
  have := generate_fallback_length_pos t
  rw [h] at this
  simp at this

/-! ### Explanation chain lemmas -/

theorem lastStep_some (o : Option String) (fb : String) (hfb : fb ≠ "") :
    ∃ s, (if pyFalsy o then some fb else o) = some s ∧ s ≠ "" := by
  match o with
  | Option.none => exact ⟨fb, by simp [pyFalsy], hfb⟩
  | some s =>
    by_cases hs : s.isEmpty = true
    · exact ⟨fb, by simp [pyFalsy, hs], hfb⟩
    · refine ⟨s, by simp [pyFalsy, hs], ?_⟩
      intro hh
      subst hh
      exact hs (by decide)

theorem explain_single_trace_explanation (dsKey : String)
    (dsNet orNet : Nat → AttemptResult) (t0 t1 : String) (dur : ℚ)
    (tr : TraceRecord) (store : List TraceRecord) :
    ((explain_single_trace dsKey dsNet orNet t0 t1 dur tr store).1).explanation =
      (if pyFalsy (if pyFalsy (call_deepseek (generate_explanation_prompt_fn tr) dsKey dsNet)
            then call_openrouter (generate_explanation_prompt_fn tr) orNet
            else call_deepseek (generate_explanation_prompt_fn tr) dsKey dsNet)
        then some (generate_fallback_explanation tr)
        else (if pyFalsy (call_deepseek (generate_explanation_prompt_fn tr) dsKey dsNet)
            then call_openrouter (generate_explanation_prompt_fn tr) orNet
            else call_deepseek (generate_explanation_prompt_fn tr) dsKey dsNet)) := rfl

/-! ### Shared concrete inputs used by the witnesses -/

/-- A concrete completed trace record. -/
def sampleRecord : TraceRecord :=
  { function := "add", file := "demo.py",
    inputs := [("x", .int 2), ("y", .int 3)], output := .int 5,
    code := "def add(x, y): return x + y",
    start_time := "2026-01-01T00:00:00", end_time := "2026-01-01T00:00:01",
    duration_ms := 125 / 100, explanation := Option.none }

/-- A provider oracle whose every attempt fails. -/
def netFail : Nat → AttemptResult := fun _ => .failure

/-- A provider oracle whose every attempt succeeds with a fixed text. -/
def netOk : Nat → AttemptResult := fun _ => .success "All good."

/-- A provider oracle whose every attempt succeeds with the empty string. -/
def netEmpty : Nat → AttemptResult := fun _ => .success ""

/-- Claim C1: `explain` is total — for every trace record the resulting
`explanation` is non-null; when both remote providers yield a falsy result
it is exactly the deterministic fallback text, and that text contains the
record's function name and the two-decimal rendering of `duration_ms`. -/
theorem c1_explain_total (dsKey : String) (dsNet orNet : Nat → AttemptResult)
    (t0 t1 : String) (dur : ℚ) (tr : TraceRecord) (store : List TraceRecord) :
    (∃ s, ((explain_single_trace dsKey dsNet orNet t0 t1 dur tr store).1).explanation = some s)
    ∧ (pyFalsy (call_deepseek (generate_explanation_prompt_fn tr) dsKey dsNet) = true →
       pyFalsy (call_openrouter (generate_explanation_prompt_fn tr) orNet) = true →
       ((explain_single_trace dsKey dsNet orNet t0 t1 dur tr store).1).explanation =
         some (generate_fallback_explanation tr))
    ∧ (∃ p q, generate_fallback_explanation tr = p ++ (tr.function ++ q))
    ∧ (∃ p q, generate_fallback_explanation tr =
        p ++ (formatFixed2 tr.duration_ms ++ q)) := by
  refine ⟨?_, ?_, ?_, ?_⟩
  · rw [explain_single_trace_explanation]
    obtain ⟨s, hs, -⟩ := lastStep_some _ _ (generate_fallback_ne_empty tr)
    exact ⟨s, hs⟩
  · intro h1 h2
    rw [explain_single_trace_explanation]
    simp [h1, h2]
  · refine ⟨"The function " ++ squote,
      squote ++ " was called with inputs: " ++ inputSummary tr.inputs ++ ". " ++
        "It processed these values and returned: " ++ pyStr tr.output ++ ". " ++
        "Execution took " ++ formatFixed2 tr.duration_ms ++ "ms.", ?_⟩
    simp [generate_fallback_explanation, String.append_assoc]
  · refine ⟨"The function " ++ squote ++ tr.function ++ squote ++
        " was called with inputs: " ++ inputSummary tr.inputs ++ ". " ++
        "It processed these values and returned: " ++ pyStr tr.output ++ ". " ++
        "Execution took ", "ms.", ?_⟩
    simp [generate_fallback_explanation, String.append_assoc]

/-- Witness for C1 at a concrete record with both providers unreachable. -/
theorem c1_explain_total_witness :
    ((explain_single_trace "" netFail netFail "t0" "t1" 1 sampleRecord []).1).explanation =
      some (generate_fallback_explanation sampleRecord) :=
  (c1_explain_total "" netFail netFail "t0" "t1" 1 sampleRecord []).2.1 rfl rfl

/-- Claim C2: starting from an empty store, a sequence of N successful
instrumented calls leaves exactly their N records in call order; `drain`
returns that full sequence and resets the store, so an immediately
following `drain` returns the empty sequence. -/
theorem c2_drain_returns_all (evs : List CallEvent)
    (h : ∀ e ∈ evs, eventOk e = true) :
    (pop_traces (runCalls evs [])).1 = evs.map recordOf
    ∧ (pop_traces (runCalls evs [])).1.length = evs.length
    ∧ (pop_traces (runCalls evs [])).2 = []
    ∧ (pop_traces (pop_traces (runCalls evs [])).2).1 = [] := by
  have hrun : runCalls evs [] = evs.map recordOf := by
    simpa using runCalls_ok evs [] h
  refine ⟨?_, ?_, rfl, rfl⟩
  · simp [pop_traces, hrun]
  · simp [pop_traces, hrun]

/-- A concrete instrumented callable: integer addition on parameters
`(x, y)`, raising a `TypeError` on any other argument shape. -/
def addFunc : PyFunc :=
  { name := "add", file := "demo.py", params := ["x", "y"],
    source := some "def add(x, y): return x + y",
    impl := fun args _ =>
      match args with
      | [.int a, .int b] => .ok (.int (a + b))
      | _ => .error "TypeError" }

/-- A concrete successful call event. -/
def ev1 : CallEvent :=
  { fn := addFunc, args := [.int 1, .int 2], kwargs := [],
    t0 := "s1", t1 := "e1", dur := 1 }

/-- A second concrete successful call event. -/
def ev2 : CallEvent :=
  { fn := addFunc, args := [.int 3, .int 4], kwargs := [],
    t0 := "s2", t1 := "e2", dur := 2 }

/-- Witness for C2 on a concrete two-call sequence. -/
theorem c2_drain_returns_all_witness :
    (∀ e ∈ [ev1, ev2], eventOk e = true)
    ∧ (pop_traces (runCalls [ev1, ev2] [])).1 = [ev1, ev2].map recordOf
    ∧ (pop_traces (pop_traces (runCalls [ev1, ev2] [])).2).1 = [] :=
  ⟨fun e he => by
      rcases List.mem_cons.mp he with h | h
      · rw [h]; rfl
      · rcases List.mem_cons.mp h with h2 | h2
        · rw [h2]; rfl
        · exact absurd h2 (List.not_mem_nil e),
    (c2_drain_returns_all [ev1, ev2] (fun e he => by
      rcases List.mem_cons.mp he with h | h
      · rw [h]; rfl
      · rcases List.mem_cons.mp h with h2 | h2
        · rw [h2]; rfl
        · exact absurd h2 (List.not_mem_nil e))).1,
    (c2_drain_returns_all [ev1, ev2] (fun e he => by
      rcases List.mem_cons.mp he with h | h
      · rw [h]; rfl
      · rcases List.mem_cons.mp h with h2 | h2
        · rw [h2]; rfl
        · exact absurd h2 (List.not_mem_nil e))).2.2.2⟩

/-- Claim C3: when the wrapped callable raises, the wrapper propagates the
same error unmodified and the trace store is left exactly unchanged. -/
theorem c3_failure_no_record (fn : PyFunc) (args : List PyVal)
    (kwargs : List (String × PyVal)) (t0 t1 : String) (dur : ℚ)
    (store : List TraceRecord) (err : String)
    (h : fn.impl args kwargs = .error err) :
    wrapper fn args kwargs t0 t1 dur store = (.error err, store) := by
  simp [wrapper, h]

/-- Witness for C3: a concrete failing call appends nothing and surfaces
the error. -/
theorem c3_failure_no_record_witness :
    addFunc.impl [.str "a"] [] = .error "TypeError"
    ∧ wrapper addFunc [.str "a"] [] "s" "e" 1 [] = (.error "TypeError", []) :=
  ⟨rfl, c3_failure_no_record addFunc [.str "a"] [] "s" "e" 1 [] "TypeError" rfl⟩

/-- Claim C5: positional args bind to the first declared parameters in
declaration order and named args override positional bindings on the same
key; in particular a call `(a, b)` with named `{c: v}` against parameters
`(x, y, c)` records inputs `{x: a, y: b, c: v}`. Stated as (i) the
concrete three-parameter shape, (ii) named-argument bindings win in the
final mapping, (iii) keys not supplied by name resolve to their positional
binding, and (iv) the positional binding maps the i-th declared parameter
to the i-th positional argument. -/
theorem c5_argument_binding :
    (∀ (x y c : String) (a b v : PyVal), x ≠ y → x ≠ c → y ≠ c →
      buildInputs [x, y, c] [a, b] [(c, v)] = [(x, a), (y, b), (c, v)])
    ∧ (∀ (params : List String) (args : List PyVal)
        (kwargs : List (String × PyVal)), params.Nodup →
        (kwargs.map Prod.fst).Nodup →
        (∀ k v, (k, v) ∈ kwargs →
          lookupD (buildInputs params args kwargs) k = some v)
        ∧ (∀ k, k ∉ kwargs.map Prod.fst →
          lookupD (buildInputs params args kwargs) k =
            lookupD (params.zip args) k))
    ∧ (∀ (params : List String) (args : List PyVal) (i : Nat)
        (hip : i < params.length) (hia : i < args.length), params.Nodup →
        lookupD (params.zip args) (params.get ⟨i, hip⟩) =
          some (args.get ⟨i, hia⟩)) := by
  refine ⟨?_, ?_, ?_⟩
  · intro x y c a b v hxy hxc hyc
    have hyx : ¬ y = x := fun hh => hxy hh.symm
    have hcx : ¬ c = x := fun hh => hxc hh.symm
    have hcy : ¬ c = y := fun hh => hyc hh.symm
    simp [buildInputs, dictUpdate, dictInsert, hyx, hcx, hcy]
  · intro params args kwargs hp hkw
    constructor
    · intro k v hkv
      unfold buildInputs
      exact lookupD_dictUpdate_mem _ hkw hkv
    · intro k hk
      unfold buildInputs
      rw [lookupD_dictUpdate_not_mem _ hk, posBinding_eq_zip params args hp]
  · intro params args i hip hia hp
    exact lookupD_zip_get params args i hip hia hp

/-- Witness for C5 at parameters `(x, y, c)`, positional `(1, 2)` and
named `c := 7`. -/
theorem c5_argument_binding_witness :
    buildInputs ["x", "y", "c"] [.int 1, .int 2] [("c", .int 7)] =
      [("x", .int 1), ("y", .int 2), ("c", .int 7)] :=
  c5_argument_binding.1 "x" "y" "c" (.int 1) (.int 2) (.int 7)
    (by decide) (by decide) (by decide)

/-- Claim C7: for every record the interceptor appends, the key list of
its `inputs` mapping is exactly the positionally covered prefix of the
declared parameters followed by the keyword names — i.e. precisely the
declared parameter names supplied in that call — and every key is a
declared parameter name. (A call that violates Python's binding rules for
a plain parameter list raises inside the wrapped callable, so no record is
appended for it; `callBindsOk` captures those rules.) -/
theorem c7_inputs_keys (fn : PyFunc) (args : List PyVal)
    (kwargs : List (String × PyVal)) (t0 t1 : String) (dur : ℚ)
    (store : List TraceRecord) (v : PyVal)
    (hp : fn.params.Nodup) (hkw : (kwargs.map Prod.fst).Nodup)
    (hok : callBindsOk fn.params args kwargs)
    (hv : fn.impl args kwargs = .ok v) :
    ∃ r, (wrapper fn args kwargs t0 t1 dur store).2 = store ++ [r]
      ∧ r.inputs.map Prod.fst =
          fn.params.take args.length ++ kwargs.map Prod.fst
      ∧ ∀ k ∈ r.inputs.map Prod.fst, k ∈ fn.params := by
  obtain ⟨hlen, hdecl, hnotpos⟩ := hok
  have hdisj : ∀ k ∈ kwargs.map Prod.fst, k ∉ fn.params.take args.length := by
    intro k hk
    obtain ⟨kv, hkv, hfst⟩ := List.mem_map.mp hk
    exact hfst ▸ hnotpos kv hkv
  have hbi : buildInputs fn.params args kwargs =
      fn.params.zip args ++ kwargs :=
    buildInputs_eq_append fn.params args kwargs hp hkw hdisj
  refine ⟨{ function := fn.name, file := fn.file,
            inputs := buildInputs fn.params args kwargs, output := v,
            code := match fn.source with
              | some s => s
              | Option.none => "Source code not available",
            start_time := t0, end_time := t1, duration_ms := dur,
            explanation := Option.none }, ?_, ?_, ?_⟩
  · simp [wrapper, hv]
  · simp only [hbi, List.map_append, map_fst_zip_take]
  · intro k hk
    rw [hbi, List.map_append, map_fst_zip_take] at hk
    rcases List.mem_append.mp hk with h | h
    · exact List.mem_of_mem_take h
    · obtain ⟨kv, hkv, hfst⟩ := List.mem_map.mp h
      exact hfst ▸ hdecl kv hkv

/-- A concrete instrumented callable with three parameters that always
completes. -/
def constFunc : PyFunc :=
  { name := "const", file := "demo.py", params := ["x", "y", "c"],
    source := Option.none, impl := fun _ _ => .ok (.int 0) }

/-- Witness for C7: one positional and one keyword argument against
parameters `(x, y, c)` yield inputs keyed exactly `["x", "c"]`. -/
theorem c7_inputs_keys_witness :
    ∃ r, (wrapper constFunc [.int 1] [("c", .int 7)] "s" "e" 1 []).2 = [] ++ [r]
      ∧ r.inputs.map Prod.fst =
          constFunc.params.take 1 ++ [("c", PyVal.int 7)].map Prod.fst
      ∧ ∀ k ∈ r.inputs.map Prod.fst, k ∈ constFunc.params :=
  c7_inputs_keys constFunc [.int 1] [("c", .int 7)] "s" "e" 1 [] (.int 0)
    (by decide) (by decide) (by decide) rfl

/-- Claim C6: the chain consults DeepSeek first and OpenRouter second,
each via exactly one attempt (`net 0`) with the 30-unit client timeout:
(i) a successful non-empty DeepSeek text is used whatever OpenRouter
would do (no further provider attempted); (ii) on a falsy DeepSeek result
a successful non-empty OpenRouter text is used; (iii) the whole outcome
depends only on each provider's first attempt (single attempt, no retry);
(iv) both client timeouts are 30. -/
theorem c6_provider_chain (dsKey : String) (dsNet orNet : Nat → AttemptResult)
    (t0 t1 : String) (dur : ℚ) (tr : TraceRecord) (store : List TraceRecord) :
    (∀ (s : String) (orNetB : Nat → AttemptResult), dsKey ≠ "" →
      dsNet 0 = .success s → s.isEmpty = false →
      ((explain_single_trace dsKey dsNet orNetB t0 t1 dur tr store).1).explanation =
        some s)
    ∧ (∀ s : String,
      pyFalsy (call_deepseek (generate_explanation_prompt_fn tr) dsKey dsNet) = true →
      orNet 0 = .success s → s.isEmpty = false →
      ((explain_single_trace dsKey dsNet orNet t0 t1 dur tr store).1).explanation =
        some s)
    ∧ (∀ dsNetB orNetB : Nat → AttemptResult, dsNet 0 = dsNetB 0 →
      orNet 0 = orNetB 0 →
      explain_single_trace dsKey dsNet orNet t0 t1 dur tr store =
        explain_single_trace dsKey dsNetB orNetB t0 t1 dur tr store)
    ∧ DEEPSEEK_HTTP_TIMEOUT = 30 ∧ OPENROUTER_HTTP_TIMEOUT = 30 := by
  refine ⟨?_, ?_, ?_, rfl, rfl⟩
  · intro s orNetB hkey hnet hs
    rw [explain_single_trace_explanation]
    simp [call_deepseek, hkey, hnet, pyFalsy, hs]
  · intro s h1 hnet hs
    rw [explain_single_trace_explanation]
    rw [h1]
    simp only [if_true]
    have hor : call_openrouter (generate_explanation_prompt_fn tr) orNet = some s := by
      simp [call_openrouter, OPENROUTER_API_KEY, hnet]
    rw [hor]
    simp [pyFalsy, hs]
  · intro dsNetB orNetB h1 h2
    unfold explain_single_trace call_deepseek call_openrouter
    rw [h1, h2]

/-- Witness for C6: a non-empty DeepSeek success is stored even when
OpenRouter would fail. -/
theorem c6_provider_chain_witness :
    ((explain_single_trace "k" netOk netFail "t0" "t1" 1 sampleRecord []).1).explanation =
      some "All good." :=
  (c6_provider_chain "k" netOk netFail "t0" "t1" 1 sampleRecord []).1
    "All good." netFail (by decide) rfl (by decide)

/-- Claim C10: a provider success whose extracted text is the empty
string is treated exactly like a failure of that provider — replacing the
empty success by a failure changes nothing — and the stored explanation
is consequently never the empty string (nor null). -/
theorem c10_empty_text_is_failure (dsKey : String)
    (dsNetA dsNetB orNetA orNetB : Nat → AttemptResult) (t0 t1 : String)
    (dur : ℚ) (tr : TraceRecord) (store : List TraceRecord) :
    (dsNetA 0 = .success "" → dsNetB 0 = .failure →
      explain_single_trace dsKey dsNetA orNetA t0 t1 dur tr store =
        explain_single_trace dsKey dsNetB orNetA t0 t1 dur tr store)
    ∧ (orNetA 0 = .success "" → orNetB 0 = .failure →
      explain_single_trace dsKey dsNetA orNetA t0 t1 dur tr store =
        explain_single_trace dsKey dsNetA orNetB t0 t1 dur tr store)
    ∧ (∃ s, ((explain_single_trace dsKey dsNetA orNetA t0 t1 dur tr store).1).explanation =
        some s ∧ s ≠ "") := by
  refine ⟨?_, ?_, ?_⟩
  · intro hA hB
    unfold explain_single_trace call_deepseek
    rw [hA, hB]
    have hemp : ("" : String).isEmpty = true := by decide
    by_cases hk : dsKey = ""
    · simp [hk]
    · simp [hk, pyFalsy, hemp]
  · intro hA hB
    unfold explain_single_trace call_openrouter
    rw [hA, hB]
    have hemp : ("" : String).isEmpty = true := by decide
    have hkey : ¬ OPENROUTER_API_KEY = "" := by decide
    by_cases hds : pyFalsy (call_deepseek
        (generate_explanation_prompt tr t0 t1 dur store).1 dsKey dsNetA) = true
    · simp only [hds, if_true]
      simp [hkey, pyFalsy, hemp]
    · simp [hds]
  · rw [explain_single_trace_explanation]
    exact lastStep_some _ _ (generate_fallback_ne_empty tr)

/-- Witness for C10: an empty-text DeepSeek success yields the same
result as a DeepSeek failure. -/
theorem c10_empty_text_is_failure_witness :
    explain_single_trace "k" netEmpty netFail "t0" "t1" 1 sampleRecord [] =
      explain_single_trace "k" netFail netFail "t0" "t1" 1 sampleRecord [] :=
  (c10_empty_text_is_failure "k" netEmpty netFail netFail netFail
    "t0" "t1" 1 sampleRecord []).1 rfl rfl

/-- Counterexample to claim C4 as stated: invoking the Prompt Builder on a
concrete record starting from the empty Trace Store does not leave the
store unchanged — the builder is itself decorated with `@explainX()` and
appends a record for its own invocation. -/
theorem c4_prompt_builder_counterexample :
    (generate_explanation_prompt sampleRecord "t0" "t1" 1 []).2 ≠ [] := by
  simp [generate_explanation_prompt]

/-- Claim C4 as amended: the prompt text is a pure, deterministic function
of the Trace Record alone (independent of timestamps, duration and store
contents), but building a prompt appends exactly one Trace Record — the
trace of the builder's own invocation — to the Trace Store. -/
theorem c4_prompt_builder (t : TraceRecord) (t0 t1 : String) (dur : ℚ)
    (store : List TraceRecord) :
    (generate_explanation_prompt t t0 t1 dur store).1 =
      generate_explanation_prompt_fn t
    ∧ (∀ (t0B t1B : String) (durB : ℚ) (storeB : List TraceRecord),
        (generate_explanation_prompt t t0B t1B durB storeB).1 =
          (generate_explanation_prompt t t0 t1 dur store).1)
    ∧ (∃ r, (generate_explanation_prompt t t0 t1 dur store).2 = store ++ [r]) := by
  refine ⟨rfl, fun _ _ _ _ => rfl, ⟨_, rfl⟩⟩

set_option maxRecDepth 8192 in
/-- Claim C8: the Report Builder is deterministic — equal input sequences
give byte-identical text — and the empty sequence renders to exactly the
fixed header and footer with no per-record content. -/
theorem c8_render_deterministic :
    (∀ a b : List TraceRecord, a = b →
      build_explain_file a = build_explain_file b)
    ∧ build_explain_file [] =
        some (strRepeat "=" 60 ++ "\n" ++ "ExplainX - Function Execution Report" ++
          "\n" ++ strRepeat "=" 60 ++ "\n" ++ "\n" ++ strRepeat "=" 60 ++ "\n" ++
          "End of ExplainX Report" ++ "\n" ++ strRepeat "=" 60) := by
  refine ⟨fun a b h => by rw [h], ?_⟩
  rfl

/-- Witness for C8 on a concrete explained record. -/
theorem c8_render_deterministic_witness :
    build_explain_file [{ sampleRecord with explanation := some "fine" }] =
      build_explain_file [{ sampleRecord with explanation := some "fine" }] :=
  c8_render_deterministic.1 _ _ rfl

/-- Claim C9: the synchronous fallback explanation pass is idempotent —
running it twice equals running it once — because the fallback text reads
only the record's function name, inputs, output and duration, never the
prior explanation, and re-explaining simply overwrites the field. -/
theorem c9_reexplain_idempotent :
    (∀ traces : List TraceRecord,
      explain_traces_sync (explain_traces_sync traces) =
        explain_traces_sync traces)
    ∧ (∀ (t : TraceRecord) (e : Option String),
      generate_fallback_explanation { t with explanation := e } =
        generate_fallback_explanation t) := by
  constructor
  · intro traces
    induction traces with
    | nil => rfl
    | cons t rest ih =>
      simp only [explain_traces_sync, List.map_cons, List.map_map] at *
      exact congrArg _ (by simpa [explain_traces_sync] using ih)
  · intro t e
    rfl
